import Mathlib

/-
  Verification of the YHYS secure P2P chat core (app.js, p2p.js, storage.js,
  crypto.js) against its natural-language specification.

  Shallow embedding notes:
  * The external tweetnacl library is modelled symbolically (Dolev-Yao style):
    a detached signature is the pair (signed payload, signer public key), an
    authenticated ciphertext records the plaintext together with the key and
    nonce it was sealed under, and opening checks the key/nonce and returns
    the plaintext or fails.  Keys are abstract Nat handles; base64 transcoding
    of keys (a bijection) is elided.
  * Date.now() reads, Math.random() draws and nacl.randomBytes draws are
    passed in as explicit parameters, one per call site in the source.
  * The IndexedDB collections are modelled as lists of rows; a `put` replaces
    the row with the same key or appends, a `delete` drops the row with the
    key, a cursor over the `expiresAt` index bounded by `upperBound(now)`
    (inclusive) visits exactly the rows with expiresAt <= now.
-/

namespace YHYS

abbrev Key := Nat

/-- Public key corresponding to a secret key.  Symbolic model: the handle of
the secret key itself identifies the key pair (nacl.box.keyPair returns a
matched pair; only the injective correspondence matters). -/
def naclPubOf (sk : Key) : Key := sk

/-- Canonical serialization signed by P2PNetwork.signIdentity and re-built by
P2PNetwork.verifyIdentity: JSON.stringify of the four fields in fixed order
(peerId, did, publicKey, timestamp), modelled by the record itself. -/
structure IdentityPayload where
  peerId : String
  did : String
  publicKey : Key
  timestamp : Nat
deriving DecidableEq, Repr

/-- Symbolic detached signature (nacl.sign.detached). -/
structure Sig where
  payload : IdentityPayload
  signerPub : Key
deriving DecidableEq, Repr

def naclSignDetached (p : IdentityPayload) (sk : Key) : Sig :=
  ⟨p, naclPubOf sk⟩

def naclSignDetachedVerify (p : IdentityPayload) (s : Sig) (pk : Key) : Bool :=
  s.payload == p && s.signerPub == pk

/-- Symbolic nacl.secretbox ciphertext. -/
structure SecretBox where
  plaintext : String
  boxKey : Key
  boxNonce : Nat
deriving DecidableEq, Repr

def naclSecretbox (m : String) (nonce : Nat) (key : Key) : SecretBox :=
  ⟨m, key, nonce⟩

def naclSecretboxOpen (c : SecretBox) (nonce : Nat) (key : Key) : Option String :=
  if c.boxKey == key && c.boxNonce == nonce then some c.plaintext else none

/-- Symbolic nacl.box shared secret: nacl.box.before(theirPk, mySk) agrees for
the two matched key pairs, so it is modelled as the unordered pair of the two
public keys. -/
def naclBoxBefore (theirPublicKey : Key) (mySk : Key) : Key × Key :=
  (min theirPublicKey (naclPubOf mySk), max theirPublicKey (naclPubOf mySk))

/-- Symbolic nacl.box.after ciphertext. -/
structure BoxCipher where
  plaintext : String
  boxShared : Key × Key
  boxNonce : Nat
deriving DecidableEq, Repr

def naclBoxAfter (m : String) (nonce : Nat) (shared : Key × Key) : BoxCipher :=
  ⟨m, shared, nonce⟩

def naclBoxOpenAfter (c : BoxCipher) (nonce : Nat) (shared : Key × Key) :
    Option String :=
  if c.boxShared == shared && c.boxNonce == nonce then some c.plaintext else none

/-! CryptoManager (crypto.js / app.js). -/

/-- CryptoManager.generateSelfDestructKey: a fresh random 32-byte key,
independent of the long-term identity; the entropy draw is a parameter. -/
def generateSelfDestructKey (entropy : Nat) : Key := entropy

/-- Return shape of CryptoManager.encryptWithSelfDestructKey (the constant
field type:'self-destruct' is elided). -/
structure SDCipher where
  encrypted : SecretBox
  nonce : Nat
deriving DecidableEq, Repr

/-- CryptoManager.encryptWithSelfDestructKey: secretbox under the provided
key with a fresh 24-byte nonce (nonceEntropy). -/
def encryptWithSelfDestructKey (message : String) (selfDestructKey : Key)
    (nonceEntropy : Nat) : SDCipher :=
  ⟨naclSecretbox message nonceEntropy selfDestructKey, nonceEntropy⟩

/-- CryptoManager.decryptWithSelfDestructKey: secretbox.open; on failure the
catch returns null, modelled as none. -/
def decryptWithSelfDestructKey (e : SDCipher) (selfDestructKey : Key) :
    Option String :=
  naclSecretboxOpen e.encrypted e.nonce selfDestructKey

/-- CryptoManager.computeSharedSecret. -/
def computeSharedSecret (theirPublicKey : Key) (mySk : Key) : Key × Key :=
  naclBoxBefore theirPublicKey mySk

/-- Wire payload of a type:'message' envelope, as returned by
CryptoManager.encryptMessage (fields encrypted, nonce, timestamp). -/
structure ChatCipher where
  encrypted : BoxCipher
  nonce : Nat
  timestamp : Nat
deriving DecidableEq, Repr

/-- CryptoManager.encryptMessage. -/
def encryptMessage (message : String) (recipientPublicKey : Key) (mySk : Key)
    (nonceEntropy now : Nat) : ChatCipher :=
  ⟨naclBoxAfter message nonceEntropy (computeSharedSecret recipientPublicKey mySk),
   nonceEntropy, now⟩

/-- CryptoManager.decryptMessage; null on authentication failure. -/
def decryptMessage (e : ChatCipher) (senderPublicKey : Key) (mySk : Key) :
    Option String :=
  naclBoxOpenAfter e.encrypted e.nonce (computeSharedSecret senderPublicKey mySk)

end YHYS

/-! Byte-level peerId derivation (app.js CryptoManager.generatePeerId /
generateDisplayDID / generateIdentity — the variant of CryptoManager that
derives the PeerJS-facing peerId; the crypto.js variant has no peerId). -/

namespace YHYS.AppCrypto

abbrev Byte := Fin 256

/-- The standard base64 alphabet used by nacl.util.encodeBase64. -/
def b64Alphabet : List Char :=
  ['A', 'B', 'C', 'D', 'E', 'F', 'G', 'H', 'I', 'J', 'K', 'L', 'M',
   'N', 'O', 'P', 'Q', 'R', 'S', 'T', 'U', 'V', 'W', 'X', 'Y', 'Z',
   'a', 'b', 'c', 'd', 'e', 'f', 'g', 'h', 'i', 'j', 'k', 'l', 'm',
   'n', 'o', 'p', 'q', 'r', 's', 't', 'u', 'v', 'w', 'x', 'y', 'z',
   '0', '1', '2', '3', '4', '5', '6', '7', '8', '9', '+', '/']

def b64Char (n : Nat) : Char := b64Alphabet.getD n 'A'

/-- nacl.util.encodeBase64: standard base64 with '=' padding, three input
bytes per four output characters. -/
def encodeBase64 : List Byte → List Char
  | [] => []
  | [b1] =>
      [b64Char (b1.val / 4), b64Char (b1.val % 4 * 16), '=', '=']
  | [b1, b2] =>
      [b64Char (b1.val / 4), b64Char (b1.val % 4 * 16 + b2.val / 16),
       b64Char (b2.val % 16 * 4), '=']
  | b1 :: b2 :: b3 :: rest =>
      b64Char (b1.val / 4) :: b64Char (b1.val % 4 * 16 + b2.val / 16) ::
      b64Char (b2.val % 16 * 4 + b3.val / 64) :: b64Char (b3.val % 64) ::
      encodeBase64 rest

/-- The two .replace(/[+/]/) rewrites in generatePeerId. -/
def toUrlSafeChar (c : Char) : Char :=
  if c = '+' then '-' else if c = '/' then '_' else c

/-- The .replace(/=/g, '') rewrite. -/
def stripPadding (cs : List Char) : List Char :=
  cs.filter (fun c => !(c == '='))

/-- The /^[a-zA-Z]/ test. -/
def startsWithLetter : List Char → Bool
  | [] => false
  | c :: _ => c.isAlpha

/-- app.js CryptoManager.generatePeerId: base64 of the first 16 bytes of the
public key, made URL-safe, guaranteed to start with a letter by injecting the
'user' prefix when needed, truncated by substring(0, 63). -/
def generatePeerId (publicKey : List Byte) : List Char :=
  let base64 := stripPadding ((encodeBase64 (publicKey.take 16)).map toUrlSafeChar)
  let base64 :=
    if startsWithLetter base64 then base64
    else 'u' :: 's' :: 'e' :: 'r' :: base64
  base64.take 63

/-- app.js CryptoManager.generateDisplayDID. -/
def generateDisplayDID (publicKey : List Byte) : List Char :=
  let hash := stripPadding ((encodeBase64 (publicKey.take 8)).map toUrlSafeChar)
  ('d' :: 'i' :: 'd' :: ':' :: 'p' :: 'e' :: 'e' :: 'r' :: ':' :: '1' :: ':' :: [])
    ++ hash.take 12

/-- Result record of app.js CryptoManager.generateIdentity (keys kept as raw
bytes; their base64 transcoding is a bijection and is elided). -/
structure ByteIdentity where
  publicKey : List Byte
  privateKey : List Byte
  did : List Char
  peerId : List Char
deriving DecidableEq, Repr

/-- app.js CryptoManager.generateIdentity: fresh nacl.box.keyPair (passed in
as pk/sk), peerId via generatePeerId, did via generateDisplayDID. -/
def generateIdentity (pk sk : List Byte) : ByteIdentity :=
  ⟨pk, sk, generateDisplayDID pk, generatePeerId pk⟩

/-- A character is URL/path-safe in the peerId sense: alphanumeric or one of
the two URL-safe base64 substitutes. -/
def isUrlSafeChar (c : Char) : Bool :=
  c.isAlphanum || c == '-' || c == '_'

end YHYS.AppCrypto

/-! Persistent store (storage.js SecureStorage) over list-modelled
IndexedDB collections. -/

namespace YHYS

inductive Dir
  | sent
  | received
deriving DecidableEq, Repr

/-- Keys of the messages store: autoIncrement numbers, or the 'sd_...' string
ids that received self-destruct placeholder rows carry explicitly. -/
inductive MsgKey
  | auto (n : Nat)
  | str (s : String)
deriving DecidableEq, Repr

/-- Wire envelope of type 'self-destruct-message' (p2p.js sendMessage /
handleSelfDestructMessage); the symmetric key travels inside it. -/
structure SDMsg where
  messageId : String
  encrypted : SecretBox
  nonce : Nat
  selfDestructKey : Key
  ttlHours : Nat
  timestamp : Nat
deriving DecidableEq, Repr

/-- Fields of a messages-store row apart from its key. -/
structure MessageFields where
  contactPeerId : String
  content : String
  direction : Dir
  timestamp : Nat
  isSelfDestruct : Bool := false
  selfDestructData : Option SDMsg := none
  encryptedWire : Option ChatCipher := none
deriving DecidableEq, Repr

structure MessageRec where
  id : MsgKey
  fields : MessageFields
deriving DecidableEq, Repr

/-- Row of the selfDestructMessages store (saveSelfDestructMessage). -/
structure SDRec where
  id : String
  messageData : SDMsg
  expiresAt : Nat
  ttlHours : Nat
  createdAt : Nat
deriving DecidableEq, Repr

/-- Contacts-store row.  The app.js placeholder from addContact carries no
identityVerified property; the absent field reads as false. -/
structure Contact where
  peerId : String
  did : String
  publicKey : Option Key
  connected : Bool
  lastSeen : Nat
  identityVerified : Bool
deriving DecidableEq, Repr

abbrev Contacts := List Contact

/-- get('contacts', peerId): the contacts store is keyed by peerId. -/
def getContact (cs : Contacts) (peerId : String) : Option Contact :=
  cs.find? (fun c => c.peerId == peerId)

/-- put('contacts', contact): replace the row with the same peerId key, or
append a new row. -/
def saveContact (cs : Contacts) (c : Contact) : Contacts :=
  if cs.any (fun x => x.peerId == c.peerId) then
    cs.map (fun x => if x.peerId == c.peerId then c else x)
  else cs ++ [c]

/-- delete('contacts', peerId). -/
def deleteContact (cs : Contacts) (peerId : String) : Contacts :=
  cs.filter (fun c => !(c.peerId == peerId))

structure Store where
  contacts : Contacts
  messages : List MessageRec
  selfDestructMessages : List SDRec
  nextId : Nat
deriving DecidableEq, Repr

/-- put('messages', rec) for a rec that carries its key. -/
def putMessageRec (msgs : List MessageRec) (r : MessageRec) : List MessageRec :=
  if msgs.any (fun m => m.id == r.id) then
    msgs.map (fun m => if m.id == r.id then r else m)
  else msgs ++ [r]

/-- SecureStorage.saveMessage: a row with an explicit id (received
self-destruct placeholder) keeps it, otherwise IndexedDB assigns the next
autoIncrement key. -/
def saveMessage (st : Store) (id : Option String) (f : MessageFields) : Store :=
  match id with
  | some s => { st with messages := putMessageRec st.messages ⟨MsgKey.str s, f⟩ }
  | none =>
      { st with
        messages := st.messages ++ [⟨MsgKey.auto st.nextId, f⟩],
        nextId := st.nextId + 1 }

/-- delete('messages', key). -/
def deleteMessage (msgs : List MessageRec) (k : MsgKey) : List MessageRec :=
  msgs.filter (fun m => !(m.id == k))

/-- put('selfDestructMessages', row). -/
def putSDRec (rows : List SDRec) (r : SDRec) : List SDRec :=
  if rows.any (fun x => x.id == r.id) then
    rows.map (fun x => if x.id == r.id then r else x)
  else rows ++ [r]

/-- SecureStorage.saveSelfDestructMessage: stores the whole wire envelope
(messageData, symmetric key included) with expiresAt = now + ttlHours
hours; the two Date.now() reads it makes are merged into one `now`. -/
def saveSelfDestructMessage (st : Store) (messageId : String)
    (messageData : SDMsg) (ttlHours now : Nat) : Store :=
  { st with
    selfDestructMessages :=
      putSDRec st.selfDestructMessages
        ⟨messageId, messageData, now + ttlHours * 60 * 60 * 1000, ttlHours, now⟩ }

/-- Insertion step of the .sort((a,b) => a.timestamp - b.timestamp) in
SecureStorage.getMessages. -/
def insertByTs (m : MessageRec) : List MessageRec → List MessageRec
  | [] => [m]
  | x :: xs =>
      if m.fields.timestamp ≤ x.fields.timestamp then m :: x :: xs
      else x :: insertByTs m xs

def sortByTs (l : List MessageRec) : List MessageRec :=
  l.foldr insertByTs []

/-- SecureStorage.getMessages: all rows of one contact, sorted by
timestamp. -/
def getMessages (msgs : List MessageRec) (contactPeerId : String) :
    List MessageRec :=
  sortByTs (msgs.filter (fun m => m.fields.contactPeerId == contactPeerId))

/-- SecureStorage.destroyContactData: delete every message of the contact
(one delete per row id), then delete the contact row; returns true on
success (store failures are out of scope). -/
def destroyContactData (st : Store) (contactPeerId : String) : Bool × Store :=
  let victims := getMessages st.messages contactPeerId
  let messages := victims.foldl (fun acc m => deleteMessage acc m.id) st.messages
  (true,
   { st with
     messages := messages,
     contacts := deleteContact st.contacts contactPeerId })

/-- SecureStorage.cleanupExpiredMessages: a cursor over the expiresAt index
bounded by IDBKeyRange.upperBound(now) (inclusive) deletes every visited row
and counts the deletions; rows with expiresAt > now are untouched. -/
def cleanupExpiredMessages (now : Nat) : List SDRec → Nat × List SDRec
  | [] => (0, [])
  | e :: rest =>
      let r := cleanupExpiredMessages now rest
      if e.expiresAt ≤ now then (r.1 + 1, r.2) else (r.1, e :: r.2)

end YHYS

/-! Protocol layer (p2p.js P2PNetwork) and the app.js placeholder path. -/

namespace YHYS

/-- Identity record as held by P2PNetwork.currentIdentity.  mkIdentity
captures what CryptoManager.generateIdentity guarantees for the protocol:
publicKey is the public half of privateKey (peerId/did derivations are the
byte-level AppCrypto functions). -/
structure Identity where
  publicKey : Key
  privateKey : Key
  did : String
  peerId : String
deriving DecidableEq, Repr

def mkIdentity (sk : Key) (did peerId : String) : Identity :=
  ⟨naclPubOf sk, sk, did, peerId⟩

/-- Wire envelope of type 'identity'. -/
structure IdentityMsg where
  peerId : String
  did : String
  publicKey : Key
  timestamp : Nat
  signature : Sig
deriving DecidableEq, Repr

/-- P2PNetwork.signIdentity: signs {peerId, did, publicKey, timestamp} where
the timestamp is a Date.now() read made inside signIdentity itself
(parameter nowSig). -/
def signIdentity (identity : Identity) (nowSig : Nat) : Sig :=
  naclSignDetached
    ⟨identity.peerId, identity.did, identity.publicKey, nowSig⟩
    identity.privateKey

/-- P2PNetwork.sendIdentity: the envelope's timestamp field is one
Date.now() read (nowMsg); the signature field then calls signIdentity, which
performs its own, later Date.now() read (nowSig). -/
def sendIdentity (identity : Identity) (nowMsg nowSig : Nat) : IdentityMsg :=
  ⟨identity.peerId, identity.did, identity.publicKey, nowMsg,
   signIdentity identity nowSig⟩

/-- P2PNetwork.verifyIdentity (the catch branch, base64 decoding failure,
cannot occur in the symbolic model). -/
def verifyIdentity (data : IdentityPayload) (signature : Sig) (publicKey : Key) :
    Bool :=
  naclSignDetachedVerify data signature publicKey

/-- The validity check performed by P2PNetwork.handleIdentity: the received
envelope's own fields and timestamp, verified against the embedded public
key. -/
def identityMsgValid (data : IdentityMsg) : Bool :=
  verifyIdentity
    ⟨data.peerId, data.did, data.publicKey, data.timestamp⟩
    data.signature data.publicKey

/-- P2PNetwork.handleIdentity restricted to its effect on the contacts
store: an invalid assertion is discarded; a valid one stores the contact
with its public key, connected = true and identityVerified = true. -/
def handleIdentity (cs : Contacts) (data : IdentityMsg) (now : Nat) : Contacts :=
  if identityMsgValid data then
    saveContact cs ⟨data.peerId, data.did, some data.publicKey, true, now, true⟩
  else cs

/-- P2PNetwork.handleIdentityAck: if a contact row exists for the channel's
peer, set identityVerified = true and save it; otherwise do nothing. -/
def handleIdentityAck (cs : Contacts) (peerId : String) : Contacts :=
  match getContact cs peerId with
  | some c => saveContact cs { c with identityVerified := true }
  | none => cs

/-- app.js P2PChatApp.addContact: input length must be within 5..63 and the
contact must not already exist; then a placeholder row with publicKey null
and no identityVerified property (read as false) is saved. -/
def addContact (cs : Contacts) (contactInput : String) (now : Nat) : Contacts :=
  if contactInput.length < 5 || decide (63 < contactInput.length) then cs
  else if (cs.find? (fun c => c.peerId == contactInput)).isSome then cs
  else saveContact cs ⟨contactInput, contactInput, none, false, now, false⟩

/-- P2PNetwork.isContactReady: contact && contact.publicKey &&
contact.identityVerified. -/
def isContactReady (cs : Contacts) (peerId : String) : Bool :=
  match getContact cs peerId with
  | some c => c.publicKey.isSome && c.identityVerified
  | none => false

/-- The checkReady loop of P2PNetwork.waitForContactReady: at each poll time
t it first re-reads readiness, then rejects once the elapsed time exceeds
the budget, otherwise schedules the next poll 500 ms later.  `ready t` is
the value isContactReady returns against the store as of time t.  The fuel
argument only forces termination; waitForContactReady supplies more fuel
than the loop can consume before deciding. -/
def checkReady (ready : Nat → Bool) (timeout : Nat) : Nat → Nat → Bool
  | 0, _ => false
  | fuel + 1, t =>
      if ready t then true
      else if timeout < t then false
      else checkReady ready timeout fuel (t + 500)

/-- P2PNetwork.waitForContactReady with its polling start at elapsed time 0.
True models the resolve(true) branch; false models the rejection that
sendMessage turns into its identity-not-ready failure. -/
def waitForContactReady (ready : Nat → Bool) (timeout : Nat) : Bool :=
  checkReady ready timeout (timeout / 500 + 2) 0

/-- Errors thrown by P2PNetwork.sendMessage: the wrapped wait timeout
(contact identity not ready) and the missing-public-key throw. -/
inductive SendError
  | identityNotReady
  | noPublicKey
deriving DecidableEq, Repr

/-- Observable side effects, in execution order. -/
inductive Effect
  | savedMessage (id : Option String) (f : MessageFields)
  | savedSelfDestruct (messageId : String) (messageData : SDMsg) (ttlHours : Nat)
  | wireSend (peerId : String) (delivered : Bool)
  | sentIdentity (peerId : String)
  | emitted (event : String)
deriving DecidableEq, Repr

/-- P2PNetwork.send: delivers and returns true iff the channel to the peer
exists and is open (connOpen), else returns false without sending. -/
def sendOverChannel (connOpen : Bool) : Bool := connOpen

/-- P2PNetwork.sendMessage.  `ready` abstracts the evolving store the wait
loop polls; `st` is the store once the wait has completed (the single
logical flow leaves it stable for the rest of the call).  now / rnd /
keyEntropy / nonceEntropy are the Date.now(), Math.random() and
nacl.randomBytes draws, one per source call site. -/
def sendMessage (ready : Nat → Bool) (st : Store) (peerId message : String)
    (selfDestruct : Bool) (ttlHours : Nat) (connOpen : Bool) (mySk : Key)
    (now rnd keyEntropy nonceEntropy : Nat) :
    Except SendError (Bool × Store × List Effect) :=
  if waitForContactReady ready 10000 = false then
    Except.error SendError.identityNotReady
  else
    match getContact st.contacts peerId with
    | none => Except.error SendError.noPublicKey
    | some contact =>
      match contact.publicKey with
      | none => Except.error SendError.noPublicKey
      | some publicKey =>
        if selfDestruct then
          let selfDestructKey := generateSelfDestructKey keyEntropy
          let encrypted := encryptWithSelfDestructKey message selfDestructKey nonceEntropy
          let messageId := "sd_" ++ toString now ++ "_" ++ toString rnd
          let messageData : SDMsg :=
            ⟨messageId, encrypted.encrypted, encrypted.nonce, selfDestructKey,
             ttlHours, now⟩
          let st1 := saveSelfDestructMessage st messageId messageData ttlHours now
          let sent := sendOverChannel connOpen
          Except.ok (sent, st1,
            [Effect.savedSelfDestruct messageId messageData ttlHours,
             Effect.wireSend peerId sent])
        else
          let _wire := encryptMessage message publicKey mySk nonceEntropy now
          let sent := sendOverChannel connOpen
          if sent then
            let localMessage : MessageFields :=
              ⟨peerId, message, Dir.sent, now, false, none, none⟩
            let st1 := saveMessage st none localMessage
            Except.ok (true, st1,
              [Effect.wireSend peerId true,
               Effect.savedMessage none localMessage,
               Effect.emitted "message-sent"])
          else Except.ok (false, st, [Effect.wireSend peerId false])

/-- Marker content of a received, not yet decrypted self-destruct message. -/
def sdPlaceholderText : String := "自毁消息 (点击解密)"

/-- P2PNetwork.handleSelfDestructMessage: looks the contact up but uses it
for nothing that gates persistence; always saves the placeholder row (full
envelope retained in selfDestructData) and raises message-received. -/
def handleSelfDestructMessage (st : Store) (peerId : String) (data : SDMsg) :
    Store × List Effect :=
  let f : MessageFields :=
    ⟨peerId, sdPlaceholderText, Dir.received, data.timestamp, true, some data, none⟩
  (saveMessage st (some data.messageId) f,
   [Effect.savedMessage (some data.messageId) f,
    Effect.emitted "message-received"])

/-- P2PNetwork.handleChatMessage: with no contact or no public key it only
re-sends its own identity and drops the message; on decryption failure it
drops; otherwise it saves the received row and raises message-received. -/
def handleChatMessage (st : Store) (peerId : String) (data : ChatCipher)
    (mySk : Key) : Store × List Effect :=
  match getContact st.contacts peerId with
  | none => (st, [Effect.sentIdentity peerId])
  | some contact =>
    match contact.publicKey with
    | none => (st, [Effect.sentIdentity peerId])
    | some publicKey =>
      match decryptMessage data publicKey mySk with
      | none => (st, [])
      | some decrypted =>
        let f : MessageFields :=
          ⟨peerId, decrypted, Dir.received, data.timestamp, false, none, some data⟩
        (saveMessage st none f,
         [Effect.savedMessage none f, Effect.emitted "message-received"])

/-- Handshake events one side can process from one remote peer's channel:
the peer's identity assertion, or an identity-ack from that peer. -/
inductive HsEvent
  | identityMsg (data : IdentityMsg)
  | identityAck
deriving DecidableEq, Repr

def hsStep (peerId : String) (now : Nat) (cs : Contacts) : HsEvent → Contacts
  | HsEvent.identityMsg data => handleIdentity cs data now
  | HsEvent.identityAck => handleIdentityAck cs peerId

def hsRun (peerId : String) (now : Nat) (evs : List HsEvent) (cs : Contacts) :
    Contacts :=
  evs.foldl (hsStep peerId now) cs

end YHYS

/-! Helper lemmas about the contacts store. -/

namespace YHYS

theorem find?_map_replace (cs : Contacts) (c : Contact)
    (h : cs.any (fun x => x.peerId == c.peerId) = true) :
    (cs.map (fun x => if x.peerId == c.peerId then c else x)).find?
      (fun x => x.peerId == c.peerId) = some c := by
  induction cs with
  | nil => simp at h
  | cons x xs ih =>
    by_cases hx : (x.peerId == c.peerId) = true
    · simp [List.find?, hx]
    · have hx' : (x.peerId == c.peerId) = false := eq_false_of_ne_true hx
      have h' : xs.any (fun x => x.peerId == c.peerId) = true := by
        simpa [List.any_cons, hx'] using h
      simpa [List.find?, hx'] using ih h'

theorem find?_append_self (cs : Contacts) (c : Contact)
    (h : cs.any (fun x => x.peerId == c.peerId) = false) :
    (cs ++ [c]).find? (fun x => x.peerId == c.peerId) = some c := by
  induction cs with
  | nil => simp [List.find?]
  | cons x xs ih =>
    have hx : (x.peerId == c.peerId) = false := by
      have := List.any_eq_false.mp h x (List.mem_cons_self x xs)
      simpa using this
    have h' : xs.any (fun x => x.peerId == c.peerId) = false := by
      refine List.any_eq_false.mpr ?_
      intro y hy
      exact List.any_eq_false.mp h y (List.mem_cons_of_mem x hy)
    simpa [List.find?, hx] using ih h'

theorem getContact_saveContact_self (cs : Contacts) (c : Contact) :
    getContact (saveContact cs c) c.peerId = some c := by
  unfold getContact saveContact
  by_cases h : cs.any (fun x => x.peerId == c.peerId) = true
  · simpa [h] using find?_map_replace cs c h
  · have h' : cs.any (fun x => x.peerId == c.peerId) = false := eq_false_of_ne_true h
    simpa [h'] using find?_append_self cs c h'

theorem getContact_eq_some_peerId {cs : Contacts} {p : String} {c : Contact}
    (h : getContact cs p = some c) : c.peerId = p := by
  unfold getContact at h
  have hp := List.find?_some h
  exact eq_of_beq hp

end YHYS

/-! Claim theorems. -/

namespace YHYS

/-- C1 (code bug witness): `sendIdentity` reads `Date.now()` once for the
envelope's timestamp field and a second time inside `signIdentity` for the
signed payload, so the signature the Handshake Controller attaches to an
identity assertion verifies against the embedded public key only when the
two clock reads coincide: with reads 1000/1001 the receiver-side check
`identityMsgValid` rejects the assertion, while with equal reads it
accepts. -/
theorem identity_assertion_timestamp_mismatch :
    identityMsgValid (sendIdentity (mkIdentity 1 "did-a" "peer-a") 1000 1001) = false ∧
    identityMsgValid (sendIdentity (mkIdentity 1 "did-a" "peer-a") 1000 1000) = true := by
  decide

/-- C3 (code bug witness): starting from an empty contacts store, creating
the outbound placeholder via `addContact` (publicKey null, verified false)
and then processing an identity-ack via `handleIdentityAck` yields a stored
contact with `identityVerified = true` and `publicKey = none`, violating the
claimed invariant that every verified contact has a non-null public key. -/
theorem verified_contact_with_null_publicKey :
    ∃ c, getContact (handleIdentityAck (addContact [] "peer-1" 0) "peer-1") "peer-1"
        = some c ∧ c.identityVerified = true ∧ c.publicKey = none := by
  exact ⟨⟨"peer-1", "peer-1", none, false, 0, true⟩, by decide, rfl, rfl⟩

/-- C5: for every message and every key produced by
`generateSelfDestructKey`, decrypting the `encryptWithSelfDestructKey`
ciphertext with the same key returns the message, and decrypting it with any
other key fails with `none`, never with plaintext. -/
theorem selfDestruct_roundtrip (m : String) (entropy nonceEntropy : Nat)
    (otherKey : Key) (hne : otherKey ≠ generateSelfDestructKey entropy) :
    decryptWithSelfDestructKey
        (encryptWithSelfDestructKey m (generateSelfDestructKey entropy) nonceEntropy)
        (generateSelfDestructKey entropy) = some m ∧
    decryptWithSelfDestructKey
        (encryptWithSelfDestructKey m (generateSelfDestructKey entropy) nonceEntropy)
        otherKey = none := by
  constructor
  · simp [decryptWithSelfDestructKey, encryptWithSelfDestructKey,
      naclSecretboxOpen, naclSecretbox]
  · have hk : (generateSelfDestructKey entropy == otherKey) = false := by
      simp [Ne.symm hne]
    simp [decryptWithSelfDestructKey, encryptWithSelfDestructKey,
      naclSecretboxOpen, naclSecretbox, hk]

/-- Witness for C5 at a concrete message and key pair. -/
theorem selfDestruct_roundtrip_witness :
    (7 : Key) ≠ generateSelfDestructKey 1 ∧
    (decryptWithSelfDestructKey
        (encryptWithSelfDestructKey "hello" (generateSelfDestructKey 1) 2)
        (generateSelfDestructKey 1) = some "hello" ∧
     decryptWithSelfDestructKey
        (encryptWithSelfDestructKey "hello" (generateSelfDestructKey 1) 2)
        7 = none) :=
  ⟨by decide, selfDestruct_roundtrip "hello" 1 2 7 (by decide)⟩

/-- C6: one sweep of `cleanupExpiredMessages` at time `now` keeps exactly
the envelopes with `expiresAt > now` (so every envelope with expiry in the
past is deleted, every one with expiry in the future survives) and returns
the number of deleted entries. -/
theorem cleanupExpiredMessages_spec (now : Nat) (sd : List SDRec) :
    (cleanupExpiredMessages now sd).2
        = sd.filter (fun e => decide (now < e.expiresAt)) ∧
    (∀ e ∈ sd, e.expiresAt ≤ now → e ∉ (cleanupExpiredMessages now sd).2) ∧
    (∀ e ∈ sd, now < e.expiresAt → e ∈ (cleanupExpiredMessages now sd).2) ∧
    (cleanupExpiredMessages now sd).1 + (cleanupExpiredMessages now sd).2.length
        = sd.length := by
  have hfilter : ∀ l : List SDRec,
      (cleanupExpiredMessages now l).2 = l.filter (fun e => decide (now < e.expiresAt)) := by
    intro l
    induction l with
    | nil => rfl
    | cons e rest ih =>
      by_cases h : e.expiresAt ≤ now
      · simp [cleanupExpiredMessages, h, ih, Nat.not_lt.mpr h]
      · simp [cleanupExpiredMessages, h, ih, Nat.lt_of_not_le h]
  have hcount : ∀ l : List SDRec,
      (cleanupExpiredMessages now l).1 + (cleanupExpiredMessages now l).2.length
        = l.length := by
    intro l
    induction l with
    | nil => rfl
    | cons e rest ih =>
      by_cases h : e.expiresAt ≤ now
      · simp [cleanupExpiredMessages, h]
        omega
      · simp [cleanupExpiredMessages, h]
        omega
  refine ⟨hfilter sd, ?_, ?_, hcount sd⟩
  · intro e he hexp
    rw [hfilter sd]
    simp [List.mem_filter, Nat.not_lt.mpr hexp]
  · intro e he hfut
    rw [hfilter sd]
    simp [List.mem_filter, he, hfut]

end YHYS

namespace YHYS

theorem hsStep_identity_good (p : String) (now : Nat) (msgB : IdentityMsg)
    (hv : identityMsgValid msgB = true) (hp : msgB.peerId = p) (cs : Contacts) :
    ∃ c, getContact (hsStep p now cs (HsEvent.identityMsg msgB)) p = some c ∧
      c.identityVerified = true := by
  refine ⟨⟨msgB.peerId, msgB.did, some msgB.publicKey, true, now, true⟩, ?_, rfl⟩
  show getContact (handleIdentity cs msgB now) p = _
  unfold handleIdentity
  rw [hv]
  have hself :=
    getContact_saveContact_self cs ⟨msgB.peerId, msgB.did, some msgB.publicKey, true, now, true⟩
  simpa [hp] using hself

theorem hsStep_good (p : String) (now : Nat) (msgB : IdentityMsg)
    (hv : identityMsgValid msgB = true) (hp : msgB.peerId = p)
    (e : HsEvent) (he : e = HsEvent.identityMsg msgB ∨ e = HsEvent.identityAck)
    (cs : Contacts)
    (hgood : ∃ c, getContact cs p = some c ∧ c.identityVerified = true) :
    ∃ c, getContact (hsStep p now cs e) p = some c ∧ c.identityVerified = true := by
  rcases he with rfl | rfl
  · exact hsStep_identity_good p now msgB hv hp cs
  · rcases hgood with ⟨c, hc, _⟩
    have hpeer : c.peerId = p := getContact_eq_some_peerId hc
    refine ⟨{ c with identityVerified := true }, ?_, rfl⟩
    show getContact (handleIdentityAck cs p) p = _
    unfold handleIdentityAck
    rw [hc]
    have hself := getContact_saveContact_self cs { c with identityVerified := true }
    simpa [hpeer] using hself

theorem hsRun_good (p : String) (now : Nat) (msgB : IdentityMsg)
    (hv : identityMsgValid msgB = true) (hp : msgB.peerId = p) :
    ∀ (evs : List HsEvent) (cs : Contacts),
      (∀ e ∈ evs, e = HsEvent.identityMsg msgB ∨ e = HsEvent.identityAck) →
      (∃ c, getContact cs p = some c ∧ c.identityVerified = true) →
      ∃ c, getContact (hsRun p now evs cs) p = some c ∧ c.identityVerified = true := by
  intro evs
  induction evs with
  | nil => intro cs _ hgood; exact hgood
  | cons e rest ih =>
    intro cs hall hgood
    have h1 := hsStep_good p now msgB hv hp e (hall e (List.mem_cons_self e rest)) cs hgood
    have hall' : ∀ x ∈ rest, x = HsEvent.identityMsg msgB ∨ x = HsEvent.identityAck :=
      fun x hx => hall x (List.mem_cons_of_mem e hx)
    simpa [hsRun, List.foldl_cons] using ih (hsStep p now cs e) hall' h1

theorem hsRun_converges (p : String) (now : Nat) (msgB : IdentityMsg)
    (hv : identityMsgValid msgB = true) (hp : msgB.peerId = p) :
    ∀ (evs : List HsEvent) (cs : Contacts),
      (∀ e ∈ evs, e = HsEvent.identityMsg msgB ∨ e = HsEvent.identityAck) →
      HsEvent.identityMsg msgB ∈ evs →
      ∃ c, getContact (hsRun p now evs cs) p = some c ∧ c.identityVerified = true := by
  intro evs
  induction evs with
  | nil => intro cs _ hmem; simp at hmem
  | cons e rest ih =>
    intro cs hall hmem
    have hall' : ∀ x ∈ rest, x = HsEvent.identityMsg msgB ∨ x = HsEvent.identityAck :=
      fun x hx => hall x (List.mem_cons_of_mem e hx)
    rcases List.mem_cons.mp hmem with heq | hmem'
    · have h1 : ∃ c, getContact (hsStep p now cs e) p = some c ∧ c.identityVerified = true := by
        rw [← heq]
        exact hsStep_identity_good p now msgB hv hp cs
      simpa [hsRun, List.foldl_cons] using hsRun_good p now msgB hv hp rest (hsStep p now cs e) hall' h1
    · simpa [hsRun, List.foldl_cons] using ih (hsStep p now cs e) hall' hmem'

/-- C2: handshake convergence.  Two peers A and B each send a valid identity
assertion over the channel; whatever interleaving of that assertion and any
identity-acks each side processes (arrival order of assertion versus ack is
arbitrary, and acks may be absent or repeated), each side's stored contact
for the other ends with `identityVerified = true`. -/
theorem handshake_convergence
    (csA csB : Contacts) (msgA msgB : IdentityMsg) (pA pB : String)
    (evsA evsB : List HsEvent) (nowA nowB : Nat)
    (hvB : identityMsgValid msgB = true) (hpB : msgB.peerId = pB)
    (hvA : identityMsgValid msgA = true) (hpA : msgA.peerId = pA)
    (hallA : ∀ e ∈ evsA, e = HsEvent.identityMsg msgB ∨ e = HsEvent.identityAck)
    (hmemA : HsEvent.identityMsg msgB ∈ evsA)
    (hallB : ∀ e ∈ evsB, e = HsEvent.identityMsg msgA ∨ e = HsEvent.identityAck)
    (hmemB : HsEvent.identityMsg msgA ∈ evsB) :
    (∃ c, getContact (hsRun pB nowA evsA csA) pB = some c ∧ c.identityVerified = true) ∧
    (∃ c, getContact (hsRun pA nowB evsB csB) pA = some c ∧ c.identityVerified = true) :=
  ⟨hsRun_converges pB nowA msgB hvB hpB evsA csA hallA hmemA,
   hsRun_converges pA nowB msgA hvA hpA evsB csB hallB hmemB⟩

/-- Witness for C2: concrete identities for both peers, assertions built by
`sendIdentity` with coinciding clock reads, ack processed before the
assertion on side A and after it on side B. -/
theorem handshake_convergence_witness :
    (∀ e ∈ [HsEvent.identityAck,
            HsEvent.identityMsg (sendIdentity (mkIdentity 2 "did-b" "peer-b") 5 5)],
        e = HsEvent.identityMsg (sendIdentity (mkIdentity 2 "did-b" "peer-b") 5 5) ∨
        e = HsEvent.identityAck) ∧
    (∃ c, getContact
        (hsRun "peer-b" 9
          [HsEvent.identityAck,
           HsEvent.identityMsg (sendIdentity (mkIdentity 2 "did-b" "peer-b") 5 5)]
          (addContact [] "peer-b" 0))
        "peer-b" = some c ∧ c.identityVerified = true) ∧
    (∃ c, getContact
        (hsRun "peer-a" 9
          [HsEvent.identityMsg (sendIdentity (mkIdentity 1 "did-a" "peer-a") 6 6),
           HsEvent.identityAck]
          [])
        "peer-a" = some c ∧ c.identityVerified = true) := by
  refine ⟨by decide, ?_⟩
  have h := handshake_convergence
    (addContact [] "peer-b" 0) []
    (sendIdentity (mkIdentity 1 "did-a" "peer-a") 6 6)
    (sendIdentity (mkIdentity 2 "did-b" "peer-b") 5 5)
    "peer-a" "peer-b"
    [HsEvent.identityAck,
     HsEvent.identityMsg (sendIdentity (mkIdentity 2 "did-b" "peer-b") 5 5)]
    [HsEvent.identityMsg (sendIdentity (mkIdentity 1 "did-a" "peer-a") 6 6),
     HsEvent.identityAck]
    9 9
    (by decide) (by decide) (by decide) (by decide)
    (by decide) (by decide) (by decide) (by decide)
  exact h

/-- The wait loop never succeeds when the contact never becomes ready. -/
theorem checkReady_never (ready : Nat → Bool) (timeout : Nat)
    (h : ∀ t, ready t = false) :
    ∀ fuel t, checkReady ready timeout fuel t = false := by
  intro fuel
  induction fuel with
  | zero => intro t; rfl
  | succ n ih =>
    intro t
    simp only [checkReady, h t, Bool.false_eq_true, if_false]
    by_cases hc : timeout < t
    · simp [hc]
    · simp [hc, ih]

/-- C4: sending to a contact that never becomes ready polls the readiness
predicate on the fixed 500 ms grid of `checkReady` against the 10000 ms
budget that `sendMessage` passes to `waitForContactReady`, and once the
budget is exhausted the call fails with the identity-not-ready error instead
of sending (the error return carries no store change and no wire send). -/
theorem sendMessage_identityNotReady (ready : Nat → Bool) (st : Store)
    (peerId message : String) (selfDestruct : Bool) (ttlHours : Nat)
    (connOpen : Bool) (mySk : Key) (now rnd keyEntropy nonceEntropy : Nat)
    (h : ∀ t, ready t = false) :
    waitForContactReady ready 10000 = false ∧
    sendMessage ready st peerId message selfDestruct ttlHours connOpen mySk
        now rnd keyEntropy nonceEntropy
      = Except.error SendError.identityNotReady := by
  have hw : waitForContactReady ready 10000 = false :=
    checkReady_never ready 10000 h _ 0
  exact ⟨hw, by simp [sendMessage, hw]⟩

/-- Witness for C4 with a concrete never-ready contact. -/
theorem sendMessage_identityNotReady_witness :
    (∀ t, (fun _ : Nat => false) t = false) ∧
    (waitForContactReady (fun _ => false) 10000 = false ∧
     sendMessage (fun _ => false) ⟨[], [], [], 0⟩ "peer-b" "hello" false 24 true 0 0 0 0 0
       = Except.error SendError.identityNotReady) :=
  ⟨fun _ => rfl,
   sendMessage_identityNotReady (fun _ => false) ⟨[], [], [], 0⟩ "peer-b" "hello"
     false 24 true 0 0 0 0 0 (fun _ => rfl)⟩

end YHYS

namespace YHYS

theorem mem_insertByTs {a m : MessageRec} {l : List MessageRec} :
    a ∈ insertByTs m l ↔ a = m ∨ a ∈ l := by
  induction l with
  | nil => simp [insertByTs]
  | cons x xs ih =>
    by_cases h : m.fields.timestamp ≤ x.fields.timestamp
    · simp [insertByTs, h]
    · simp [insertByTs, h, ih]
      tauto

theorem mem_sortByTs {a : MessageRec} {l : List MessageRec} :
    a ∈ sortByTs l ↔ a ∈ l := by
  induction l with
  | nil => simp [sortByTs]
  | cons x xs ih =>
    show a ∈ insertByTs x (sortByTs xs) ↔ _
    rw [mem_insertByTs]
    simp [ih]

theorem foldl_deleteMessage (L : List MessageRec) :
    ∀ msgs : List MessageRec,
      L.foldl (fun acc m => deleteMessage acc m.id) msgs
        = msgs.filter (fun m => !(L.any (fun x => m.id == x.id))) := by
  induction L with
  | nil =>
    intro msgs
    simp
  | cons y L ih =>
    intro msgs
    rw [List.foldl_cons, ih (deleteMessage msgs y.id)]
    unfold deleteMessage
    rw [List.filter_filter]
    refine List.filter_congr ?_
    intro m _
    simp only [List.any_cons, Bool.not_or]
    cases h1 : (m.id == y.id) <;> cases h2 : L.any (fun x => m.id == x.id) <;>
      simp [h1, h2]

theorem getContact_deleteContact_self (cs : Contacts) (p : String) :
    getContact (deleteContact cs p) p = none := by
  unfold getContact deleteContact
  refine List.find?_eq_none.mpr ?_
  intro c hc
  have h := (List.mem_filter.mp hc).2
  simp at h
  simp [h]

theorem getContact_deleteContact_other (cs : Contacts) (p q : String)
    (hq : q ≠ p) : getContact (deleteContact cs p) q = getContact cs q := by
  induction cs with
  | nil => rfl
  | cons c rest ih =>
    unfold getContact deleteContact at ih ⊢
    by_cases hcp : (c.peerId == p) = true
    · have hpe : c.peerId = p := eq_of_beq hcp
      have hne : c.peerId ≠ q := by
        rw [hpe]
        exact fun h => hq h.symm
      have hcq : (c.peerId == q) = false := by simp [hne]
      simpa [hcp, List.find?, hcq] using ih
    · have hcp' : (c.peerId == p) = false := eq_false_of_ne_true hcp
      cases hcq : (c.peerId == q) with
      | true => simp [List.filter_cons, hcp', List.find?, hcq]
      | false => simpa [List.filter_cons, hcp', List.find?, hcq] using ih

theorem deleteContact_idem (cs : Contacts) (p : String) :
    deleteContact (deleteContact cs p) p = deleteContact cs p := by
  unfold deleteContact
  rw [List.filter_filter]
  exact List.filter_congr (fun c _ => by cases h : (c.peerId == p) <;> simp [h])

/-- C7: `destroyContactData p` removes from the store every message whose
contact identifier is `p` and the contact row for `p`, leaves messages and
contacts of other peers unchanged (order included), reports success, and a
second call on the same peer is a successful no-op (it returns true and the
very same result, raising no error). -/
theorem destroyContactData_spec (st : Store) (p : String)
    (hids : (st.messages.map (fun m => m.id)).Nodup) :
    (destroyContactData st p).1 = true ∧
    (destroyContactData st p).2.messages
        = st.messages.filter (fun m => !(m.fields.contactPeerId == p)) ∧
    getContact (destroyContactData st p).2.contacts p = none ∧
    (∀ q, q ≠ p →
        getContact (destroyContactData st p).2.contacts q = getContact st.contacts q) ∧
    destroyContactData (destroyContactData st p).2 p = destroyContactData st p := by
  have hmsgs : (destroyContactData st p).2.messages
      = st.messages.filter (fun m => !(m.fields.contactPeerId == p)) := by
    show (getMessages st.messages p).foldl (fun acc m => deleteMessage acc m.id)
        st.messages = _
    rw [foldl_deleteMessage]
    refine List.filter_congr ?_
    intro m hm
    by_cases hc : m.fields.contactPeerId = p
    · have hmem : m ∈ getMessages st.messages p := by
        unfold getMessages
        rw [mem_sortByTs]
        exact List.mem_filter.mpr ⟨hm, by simp [hc]⟩
      have hany : (getMessages st.messages p).any (fun x => m.id == x.id) = true := by
        rw [List.any_eq_true]
        exact ⟨m, hmem, by simp⟩
      simp [hany, hc]
    · have hfalse : (getMessages st.messages p).any (fun x => m.id == x.id) = false := by
        refine List.any_eq_false.mpr ?_
        intro x hx
        have hx0 : x ∈ st.messages.filter (fun m => m.fields.contactPeerId == p) :=
          mem_sortByTs.mp (by simpa [getMessages] using hx)
        have hx' := List.mem_filter.mp hx0
        intro hbeq
        have hmx : m = x := List.inj_on_of_nodup_map hids hm hx'.1 (eq_of_beq hbeq)
        exact hc (by rw [hmx]; exact eq_of_beq hx'.2)
      have hc' : (m.fields.contactPeerId == p) = false := by simp [hc]
      simp [hfalse, hc']
  have hvict2 : getMessages (destroyContactData st p).2.messages p = [] := by
    rw [hmsgs]
    unfold getMessages
    rw [List.filter_filter]
    have hz : st.messages.filter
        (fun m => (m.fields.contactPeerId == p) && !(m.fields.contactPeerId == p)) = [] := by
      refine List.eq_nil_iff_forall_not_mem.mpr ?_
      intro m hm
      have := (List.mem_filter.mp hm).2
      simp at this
    rw [hz]
    rfl
  refine ⟨rfl, hmsgs, ?_, ?_, ?_⟩
  · exact getContact_deleteContact_self st.contacts p
  · intro q hq
    exact getContact_deleteContact_other st.contacts p q hq
  · show (true,
      { (destroyContactData st p).2 with
        messages := (getMessages (destroyContactData st p).2.messages p).foldl
          (fun (acc : List MessageRec) (m : MessageRec) => deleteMessage acc m.id)
          (destroyContactData st p).2.messages,
        contacts := deleteContact (destroyContactData st p).2.contacts p }) = _
    rw [hvict2]
    show (true,
      { (destroyContactData st p).2 with
        messages := (destroyContactData st p).2.messages,
        contacts := deleteContact (deleteContact st.contacts p) p }) = _
    rw [deleteContact_idem]
    rfl

/-- Witness for C7: a store holding two contacts and three messages. -/
theorem destroyContactData_spec_witness :
    (([⟨MsgKey.auto 0, ⟨"peer-a", "m1", Dir.sent, 1, false, none, none⟩⟩,
       ⟨MsgKey.auto 1, ⟨"peer-b", "m2", Dir.received, 2, false, none, none⟩⟩,
       ⟨MsgKey.auto 2, ⟨"peer-a", "m3", Dir.sent, 3, false, none, none⟩⟩] :
        List MessageRec).map (fun m => m.id)).Nodup ∧
    (destroyContactData
        ⟨[⟨"peer-a", "peer-a", none, false, 0, false⟩,
          ⟨"peer-b", "did-b", some 2, true, 0, true⟩],
         [⟨MsgKey.auto 0, ⟨"peer-a", "m1", Dir.sent, 1, false, none, none⟩⟩,
          ⟨MsgKey.auto 1, ⟨"peer-b", "m2", Dir.received, 2, false, none, none⟩⟩,
          ⟨MsgKey.auto 2, ⟨"peer-a", "m3", Dir.sent, 3, false, none, none⟩⟩],
         [], 3⟩ "peer-a").2.messages
      = [⟨MsgKey.auto 1, ⟨"peer-b", "m2", Dir.received, 2, false, none, none⟩⟩] := by
  constructor
  · decide
  · have h := destroyContactData_spec
      ⟨[⟨"peer-a", "peer-a", none, false, 0, false⟩,
        ⟨"peer-b", "did-b", some 2, true, 0, true⟩],
       [⟨MsgKey.auto 0, ⟨"peer-a", "m1", Dir.sent, 1, false, none, none⟩⟩,
        ⟨MsgKey.auto 1, ⟨"peer-b", "m2", Dir.received, 2, false, none, none⟩⟩,
        ⟨MsgKey.auto 2, ⟨"peer-a", "m3", Dir.sent, 3, false, none, none⟩⟩],
       [], 3⟩ "peer-a" (by decide)
    rw [h.2.1]
    decide

end YHYS

namespace YHYS.AppCrypto

theorem mem_b64Char (n : Nat) : b64Char n ∈ b64Alphabet := by
  unfold b64Char
  by_cases h : n < b64Alphabet.length
  · rw [List.getD_eq_getElem b64Alphabet 'A' h]
    exact List.getElem_mem h
  · unfold List.getD
    rw [List.get?_eq_none.mpr (Nat.le_of_not_lt h)]
    decide

theorem mem_encodeBase64 :
    ∀ (bs : List Byte), ∀ c ∈ encodeBase64 bs, c ∈ b64Alphabet ∨ c = '='
  | [] => by simp [encodeBase64]
  | [b1] => by
      intro c hc
      simp only [encodeBase64, List.mem_cons, List.not_mem_nil, or_false] at hc
      rcases hc with rfl | rfl | rfl | rfl
      · exact Or.inl (mem_b64Char _)
      · exact Or.inl (mem_b64Char _)
      · exact Or.inr rfl
      · exact Or.inr rfl
  | [b1, b2] => by
      intro c hc
      simp only [encodeBase64, List.mem_cons, List.not_mem_nil, or_false] at hc
      rcases hc with rfl | rfl | rfl | rfl
      · exact Or.inl (mem_b64Char _)
      · exact Or.inl (mem_b64Char _)
      · exact Or.inl (mem_b64Char _)
      · exact Or.inr rfl
  | b1 :: b2 :: b3 :: rest => by
      intro c hc
      simp only [encodeBase64, List.mem_cons] at hc
      rcases hc with rfl | rfl | rfl | rfl | hc
      · exact Or.inl (mem_b64Char _)
      · exact Or.inl (mem_b64Char _)
      · exact Or.inl (mem_b64Char _)
      · exact Or.inl (mem_b64Char _)
      · exact mem_encodeBase64 rest c hc

theorem urlSafe_of_b64 : ∀ c ∈ b64Alphabet, isUrlSafeChar (toUrlSafeChar c) = true := by
  decide

theorem mem_generatePeerId_urlSafe (pk : List Byte) :
    ∀ c ∈ generatePeerId pk, isUrlSafeChar c = true := by
  intro c hc
  simp only [generatePeerId] at hc
  have hc' := List.mem_of_mem_take hc
  have hmemB : ∀ d, d ∈ stripPadding ((encodeBase64 (pk.take 16)).map toUrlSafeChar) →
      isUrlSafeChar d = true := by
    intro d hd
    have hd' := List.mem_filter.mp hd
    rcases List.mem_map.mp hd'.1 with ⟨c0, hc0, rfl⟩
    rcases mem_encodeBase64 (pk.take 16) c0 hc0 with hmem | rfl
    · exact urlSafe_of_b64 c0 hmem
    · simp [toUrlSafeChar] at hd'
  by_cases hs : startsWithLetter (stripPadding ((encodeBase64 (pk.take 16)).map toUrlSafeChar)) = true
  · rw [if_pos hs] at hc'
    exact hmemB c hc'
  · rw [if_neg hs] at hc'
    simp only [List.mem_cons] at hc'
    rcases hc' with rfl | rfl | rfl | rfl | hc'
    · decide
    · decide
    · decide
    · decide
    · exact hmemB c hc'

theorem generatePeerId_head_isAlpha (pk : List Byte) :
    ∃ c rest, generatePeerId pk = c :: rest ∧ c.isAlpha = true := by
  simp only [generatePeerId]
  by_cases hs : startsWithLetter (stripPadding ((encodeBase64 (pk.take 16)).map toUrlSafeChar)) = true
  · rw [if_pos hs]
    cases hB : stripPadding ((encodeBase64 (pk.take 16)).map toUrlSafeChar) with
    | nil => rw [hB] at hs; simp [startsWithLetter] at hs
    | cons c0 rest0 =>
      rw [hB] at hs
      exact ⟨c0, rest0.take 62, rfl, by simpa [startsWithLetter] using hs⟩
  · rw [if_neg hs]
    exact ⟨'u', _, rfl, by decide⟩

theorem generatePeerId_length_le (pk : List Byte) :
    (generatePeerId pk).length ≤ 63 := by
  simp only [generatePeerId]
  exact List.length_take_le 63 _

theorem generatePeerId_first16 (pk : List Byte) :
    generatePeerId pk = generatePeerId (pk.take 16) := by
  simp [generatePeerId, List.take_take]

end YHYS.AppCrypto

namespace YHYS

/-- C8: every identity returned by the app.js CryptoManager.generateIdentity
carries a peerId that is a URL/path-safe encoding determined by the first 16
bytes of the public key alone, starts with a letter (the 'user' prefix is
injected when the encoding would not), and is truncated to the 63-character
maximum imposed on transport identifiers. -/
theorem generateIdentity_peerId_spec (pk sk : List AppCrypto.Byte) :
    (AppCrypto.generateIdentity pk sk).peerId = AppCrypto.generatePeerId pk ∧
    AppCrypto.generatePeerId pk = AppCrypto.generatePeerId (pk.take 16) ∧
    (∀ c ∈ (AppCrypto.generateIdentity pk sk).peerId,
        AppCrypto.isUrlSafeChar c = true) ∧
    (∃ c rest, (AppCrypto.generateIdentity pk sk).peerId = c :: rest ∧
        c.isAlpha = true) ∧
    (AppCrypto.generateIdentity pk sk).peerId.length ≤ 63 :=
  ⟨rfl, AppCrypto.generatePeerId_first16 pk,
   AppCrypto.mem_generatePeerId_urlSafe pk,
   AppCrypto.generatePeerId_head_isAlpha pk,
   AppCrypto.generatePeerId_length_le pk⟩

end YHYS

namespace YHYS

theorem self_mem_putSDRec (rows : List SDRec) (r : SDRec) : r ∈ putSDRec rows r := by
  unfold putSDRec
  by_cases h : rows.any (fun x => x.id == r.id) = true
  · rw [if_pos h]
    rcases List.any_eq_true.mp h with ⟨x, hx, hxe⟩
    refine List.mem_map.mpr ⟨x, hx, ?_⟩
    simp [hxe]
  · rw [if_neg h]
    exact List.mem_append_right _ (by simp)

theorem self_mem_putMessageRec (msgs : List MessageRec) (r : MessageRec) :
    r ∈ putMessageRec msgs r := by
  unfold putMessageRec
  by_cases h : msgs.any (fun m => m.id == r.id) = true
  · rw [if_pos h]
    rcases List.any_eq_true.mp h with ⟨x, hx, hxe⟩
    refine List.mem_map.mpr ⟨x, hx, ?_⟩
    simp [hxe]
  · rw [if_neg h]
    exact List.mem_append_right _ (by simp)

/-- C9: with a ready, verified contact, a self-destruct send persists the
envelope — symmetric key included — before the wire send is attempted (the
effect trace stores first, then sends) and the envelope stays in the store
whatever the send outcome, including a failed send; an ordinary send
persists its local plaintext message record exactly when the wire send
succeeded. -/
theorem sendMessage_selfDestruct_persistence
    (ready : Nat → Bool) (st : Store) (peerId message : String)
    (ttlHours : Nat) (mySk : Key) (now rnd keyEntropy nonceEntropy : Nat)
    (contact : Contact) (publicKey : Key)
    (hw : waitForContactReady ready 10000 = true)
    (hc : getContact st.contacts peerId = some contact)
    (hpk : contact.publicKey = some publicKey) :
    (∀ connOpen, ∃ st1,
        sendMessage ready st peerId message true ttlHours connOpen mySk
            now rnd keyEntropy nonceEntropy
          = Except.ok (connOpen, st1,
              [Effect.savedSelfDestruct ("sd_" ++ toString now ++ "_" ++ toString rnd)
                 ⟨"sd_" ++ toString now ++ "_" ++ toString rnd,
                  naclSecretbox message nonceEntropy (generateSelfDestructKey keyEntropy),
                  nonceEntropy, generateSelfDestructKey keyEntropy, ttlHours, now⟩
                 ttlHours,
               Effect.wireSend peerId connOpen]) ∧
        (∃ rec ∈ st1.selfDestructMessages,
            rec.id = "sd_" ++ toString now ++ "_" ++ toString rnd ∧
            rec.messageData.selfDestructKey = generateSelfDestructKey keyEntropy ∧
            rec.expiresAt = now + ttlHours * 60 * 60 * 1000)) ∧
    (∃ st1,
        sendMessage ready st peerId message false ttlHours false mySk
            now rnd keyEntropy nonceEntropy
          = Except.ok (false, st1, [Effect.wireSend peerId false]) ∧ st1 = st) ∧
    (∃ st1,
        sendMessage ready st peerId message false ttlHours true mySk
            now rnd keyEntropy nonceEntropy
          = Except.ok (true, st1,
              [Effect.wireSend peerId true,
               Effect.savedMessage none ⟨peerId, message, Dir.sent, now, false, none, none⟩,
               Effect.emitted "message-sent"]) ∧
        st1.messages = st.messages
          ++ [⟨MsgKey.auto st.nextId, ⟨peerId, message, Dir.sent, now, false, none, none⟩⟩]) := by
  refine ⟨?_, ?_, ?_⟩
  · intro connOpen
    refine ⟨saveSelfDestructMessage st ("sd_" ++ toString now ++ "_" ++ toString rnd)
      ⟨"sd_" ++ toString now ++ "_" ++ toString rnd,
       naclSecretbox message nonceEntropy (generateSelfDestructKey keyEntropy),
       nonceEntropy, generateSelfDestructKey keyEntropy, ttlHours, now⟩
      ttlHours now, ?_, ?_⟩
    · simp [sendMessage, hw, hc, hpk, encryptWithSelfDestructKey, sendOverChannel]
    · refine ⟨⟨"sd_" ++ toString now ++ "_" ++ toString rnd,
        ⟨"sd_" ++ toString now ++ "_" ++ toString rnd,
         naclSecretbox message nonceEntropy (generateSelfDestructKey keyEntropy),
         nonceEntropy, generateSelfDestructKey keyEntropy, ttlHours, now⟩,
        now + ttlHours * 60 * 60 * 1000, ttlHours, now⟩, ?_, rfl, rfl, rfl⟩
      exact self_mem_putSDRec st.selfDestructMessages _
  · exact ⟨st, by simp [sendMessage, hw, hc, hpk, sendOverChannel], rfl⟩
  · refine ⟨saveMessage st none ⟨peerId, message, Dir.sent, now, false, none, none⟩, ?_, ?_⟩
    · simp [sendMessage, hw, hc, hpk, sendOverChannel]
    · simp [saveMessage]

/-- Witness for C9: concrete ready contact, self-destruct send over a closed
channel (the send fails yet the envelope is persisted). -/
theorem sendMessage_selfDestruct_persistence_witness :
    waitForContactReady (fun _ => true) 10000 = true ∧
    getContact (⟨[⟨"peer-b", "did-b", some 2, true, 0, true⟩], [], [], 0⟩ : Store).contacts
        "peer-b" = some ⟨"peer-b", "did-b", some 2, true, 0, true⟩ ∧
    (⟨"peer-b", "did-b", some 2, true, 0, true⟩ : Contact).publicKey = some 2 ∧
    (∃ st1,
        sendMessage (fun _ => true) ⟨[⟨"peer-b", "did-b", some 2, true, 0, true⟩], [], [], 0⟩
            "peer-b" "secret" true 24 false 0 5 9 9 11
          = Except.ok (false, st1,
              [Effect.savedSelfDestruct ("sd_" ++ toString 5 ++ "_" ++ toString 9)
                 ⟨"sd_" ++ toString 5 ++ "_" ++ toString 9,
                  naclSecretbox "secret" 11 (generateSelfDestructKey 9),
                  11, generateSelfDestructKey 9, 24, 5⟩ 24,
               Effect.wireSend "peer-b" false]) ∧
        (∃ rec ∈ st1.selfDestructMessages,
            rec.id = "sd_" ++ toString 5 ++ "_" ++ toString 9 ∧
            rec.messageData.selfDestructKey = generateSelfDestructKey 9 ∧
            rec.expiresAt = 5 + 24 * 60 * 60 * 1000)) :=
  ⟨rfl, by decide, rfl,
   (sendMessage_selfDestruct_persistence (fun _ => true)
      ⟨[⟨"peer-b", "did-b", some 2, true, 0, true⟩], [], [], 0⟩
      "peer-b" "secret" 24 0 5 9 9 11
      ⟨"peer-b", "did-b", some 2, true, 0, true⟩ 2
      rfl (by decide) rfl).1 false⟩

/-- C10: a received self-destruct envelope is persisted as a placeholder
message (marker content, isSelfDestruct true, full envelope retained) and
message-received is raised with no verification precondition at all, while
an ordinary message envelope arriving from a peer with no stored contact or
no stored public key is dropped without persisting anything and without
raising message-received. -/
theorem handleSelfDestructMessage_no_precondition
    (st : Store) (peerId : String) (data : SDMsg) (cm : ChatCipher) (mySk : Key)
    (hmissing : getContact st.contacts peerId = none ∨
        ∃ c, getContact st.contacts peerId = some c ∧ c.publicKey = none) :
    ((handleSelfDestructMessage st peerId data).1.messages
        = putMessageRec st.messages
            ⟨MsgKey.str data.messageId,
             ⟨peerId, sdPlaceholderText, Dir.received, data.timestamp, true, some data, none⟩⟩ ∧
     (⟨MsgKey.str data.messageId,
       ⟨peerId, sdPlaceholderText, Dir.received, data.timestamp, true, some data, none⟩⟩ :
        MessageRec) ∈ (handleSelfDestructMessage st peerId data).1.messages ∧
     Effect.emitted "message-received" ∈ (handleSelfDestructMessage st peerId data).2) ∧
    ((handleChatMessage st peerId cm mySk).1 = st ∧
     Effect.emitted "message-received" ∉ (handleChatMessage st peerId cm mySk).2) := by
  refine ⟨⟨rfl, ?_, by simp [handleSelfDestructMessage]⟩, ?_⟩
  · exact self_mem_putMessageRec st.messages _
  · rcases hmissing with h | ⟨c, hc, hcpk⟩
    · constructor
      · simp [handleChatMessage, h]
      · simp [handleChatMessage, h]
    · constructor
      · simp [handleChatMessage, hc, hcpk]
      · simp [handleChatMessage, hc, hcpk]

/-- Witness for C10: empty store, so no contact exists for the sender. -/
theorem handleSelfDestructMessage_no_precondition_witness :
    (getContact (⟨[], [], [], 0⟩ : Store).contacts "peer-x" = none ∨
      ∃ c, getContact (⟨[], [], [], 0⟩ : Store).contacts "peer-x" = some c ∧
        c.publicKey = none) ∧
    (((handleSelfDestructMessage ⟨[], [], [], 0⟩ "peer-x"
          ⟨"sd_1_a", naclSecretbox "m" 3 7, 3, 7, 24, 5⟩).1.messages
        = putMessageRec ([] : List MessageRec)
            ⟨MsgKey.str "sd_1_a",
             ⟨"peer-x", sdPlaceholderText, Dir.received, 5, true,
              some ⟨"sd_1_a", naclSecretbox "m" 3 7, 3, 7, 24, 5⟩, none⟩⟩ ∧
      (⟨MsgKey.str "sd_1_a",
        ⟨"peer-x", sdPlaceholderText, Dir.received, 5, true,
         some ⟨"sd_1_a", naclSecretbox "m" 3 7, 3, 7, 24, 5⟩, none⟩⟩ : MessageRec)
        ∈ (handleSelfDestructMessage ⟨[], [], [], 0⟩ "peer-x"
            ⟨"sd_1_a", naclSecretbox "m" 3 7, 3, 7, 24, 5⟩).1.messages ∧
      Effect.emitted "message-received"
        ∈ (handleSelfDestructMessage ⟨[], [], [], 0⟩ "peer-x"
            ⟨"sd_1_a", naclSecretbox "m" 3 7, 3, 7, 24, 5⟩).2) ∧
     ((handleChatMessage ⟨[], [], [], 0⟩ "peer-x" ⟨naclBoxAfter "m" 3 (0, 0), 3, 5⟩ 0).1
        = ⟨[], [], [], 0⟩ ∧
      Effect.emitted "message-received"
        ∉ (handleChatMessage ⟨[], [], [], 0⟩ "peer-x" ⟨naclBoxAfter "m" 3 (0, 0), 3, 5⟩ 0).2)) :=
  ⟨Or.inl rfl,
   handleSelfDestructMessage_no_precondition ⟨[], [], [], 0⟩ "peer-x"
     ⟨"sd_1_a", naclSecretbox "m" 3 7, 3, 7, 24, 5⟩
     ⟨naclBoxAfter "m" 3 (0, 0), 3, 5⟩ 0 (Or.inl rfl)⟩

end YHYS
